import Mathlib

/-!
Verification development for the SF street-sweeping citation pipeline.

The definitions below are shallow embeddings of the Python data-processing
scripts: strings are Lean `String`s over their character lists, machine
floats that only ever hold exact decimal values are modelled as `ℚ`,
`int()` truncation is modelled on `ℚ`, and pandas tables are lists of
records.  Each definition's doc comment names the Python function it
translates.
-/

namespace SweepVerify

/-- Characters treated as whitespace by Python's `str.strip`. -/
def pyIsSpace (c : Char) : Bool :=
  c = ' ' || c = '\t' || c = '\n' || c = '\r' || c = '\x0b' || c = '\x0c'

/-- `str.strip` on a character list: drop whitespace from both ends. -/
def pyStripList (l : List Char) : List Char :=
  ((l.dropWhile pyIsSpace).reverse.dropWhile pyIsSpace).reverse

/-- `str.strip`. -/
def pyStrip (s : String) : String := ⟨pyStripList s.data⟩

/-- `str.upper` restricted to ASCII, which is all the pipeline's data uses;
`Char.toUpper` maps `a`–`z` to `A`–`Z` and fixes every other character. -/
def pyUpper (s : String) : String := ⟨s.data.map Char.toUpper⟩

/-- Substring test: Python's `needle in hay` for strings. -/
def subList (needle : List Char) : List Char → Bool
  | [] => needle.isEmpty
  | c :: t => needle.isPrefixOf (c :: t) || subList needle t

/-- Python `needle in hay` on strings. -/
def strContains (hay needle : String) : Bool := subList needle.data hay.data

/-- Python `s.startswith(p)`. -/
def pyStartsWith (s p : String) : Bool := p.data.isPrefixOf s.data

/-- Python `s.endswith(p)`. -/
def pyEndsWith (s p : String) : Bool := p.data.isSuffixOf s.data

/-- Helper for `str.replace(old, '')`: delete every non-overlapping
occurrence of `o :: os`, scanning left to right.  The `Nat` argument is
fuel (one unit per character of input), which keeps the recursion
structural so the function evaluates by reduction. -/
def pyRemoveOccAux (o : Char) (os : List Char) : Nat → List Char → List Char
  | 0, _ => []
  | _ + 1, [] => []
  | n + 1, c :: rest =>
    if c = o && os.isPrefixOf rest then pyRemoveOccAux o os n (rest.drop os.length)
    else c :: pyRemoveOccAux o os n rest

/-- Delete every non-overlapping occurrence of `o :: os` from a list. -/
def pyRemoveOcc (o : Char) (os : List Char) (l : List Char) : List Char :=
  pyRemoveOccAux o os l.length l

/-- Python `s.replace(old, '')` (deletion form of `str.replace`). -/
def pyReplaceDel (s old : String) : String :=
  match old.data with
  | [] => s
  | o :: os => ⟨pyRemoveOcc o os s.data⟩

/-- Model of `re.match` applied to the pattern that the production matcher
writes as a raw string with doubled backslashes
(`production_hybrid_matcher_day_specific.py`, line 67).  The regex engine
therefore sees: literal backslash, one or more literal `d`, literal
backslash, one or more literal `s`, then the group `(.+)` of one or more
non-newline characters (with one step of backtracking on the `s` run when
the group would otherwise be empty).  Returns `group(1)` on success. -/
def reMatchLiteralBackslash (s : String) : Option String :=
  match s.data with
  | '\\' :: r0 =>
    let ds := r0.takeWhile (fun c => c = 'd')
    let r1 := r0.dropWhile (fun c => c = 'd')
    if ds.isEmpty then none else
    match r1 with
    | '\\' :: r2 =>
      let ss := r2.takeWhile (fun c => c = 's')
      let r3 := r2.dropWhile (fun c => c = 's')
      if ss.isEmpty then none else
      let cap := r3.takeWhile (fun c => c ≠ '\n')
      if !cap.isEmpty then some ⟨cap⟩
      else if ss.length ≥ 2 then some "s" else none
    | _ => none
  | _ => none

/-- Leading article tokens stripped by the production street extractor. -/
def leadArticles : List String := ["THE ", "OLD ", "NEW "]

/-- Directional tokens stripped by the production street extractor. -/
def directionalTokens : List String :=
  ["NORTH", "SOUTH", "EAST", "WEST", "NE", "NW", "SE", "SW",
   "NORTHEAST", "NORTHWEST", "SOUTHEAST", "SOUTHWEST"]

/-- Street-type tokens stripped by the production street extractor. -/
def streetTypes : List String :=
  ["STREET", "ST", "AVENUE", "AVE", "BOULEVARD", "BLVD",
   "DRIVE", "DR", "COURT", "CT", "PLACE", "PL", "LANE", "LN",
   "ROAD", "RD", "PARKWAY", "PKWY", "CIRCLE", "CIR", "TERRACE", "TER",
   "WAY", "PLAZA", "PLZ", "SQUARE", "SQ"]

/-- First loop of `extract_street_from_address`: strip the first matching
leading article and break. -/
def stripLeadArticle (s : String) : String :=
  match leadArticles.find? (fun p => pyStartsWith s p) with
  | some p => pyStrip ⟨s.data.drop p.length⟩
  | none => s

/-- Second loop of `extract_street_from_address`: for the first directional
token that matches as ` TOKEN` at the end or `TOKEN ` at the start, strip
it and break. -/
def stripDirectional (s : String) : String :=
  match directionalTokens.find?
      (fun d => pyEndsWith s (" " ++ d) || pyStartsWith s (d ++ " ")) with
  | some d =>
    if pyEndsWith s (" " ++ d) then pyStrip ⟨s.data.take (s.length - (d.length + 1))⟩
    else pyStrip ⟨s.data.drop (d.length + 1)⟩
  | none => s

/-- Third loop of `extract_street_from_address`: strip the first street-type
token matching either ` TYPE` at the end, or `TYPE` at the end when the
string is strictly longer than the token, and return. -/
def stripStreetType (s : String) : String :=
  match streetTypes.find?
      (fun t => pyEndsWith s (" " ++ t) || (pyEndsWith s t && s.length > t.length)) with
  | some t =>
    if pyEndsWith s (" " ++ t) then pyStrip ⟨s.data.take (s.length - (t.length + 1))⟩
    else pyStrip ⟨s.data.take (s.length - t.length)⟩
  | none => s

/-- `DaySpecificHybridMatcher.extract_street_from_address`
(`production_hybrid_matcher_day_specific.py`, lines 61-111), including the
doubled-backslash regex actually present in that file. -/
def extract_street_from_address (address : String) : String :=
  if address = "" then ""
  else
    let street_with_type :=
      match reMatchLiteralBackslash (pyStrip address) with
      | some g => g
      | none => pyStrip address
    let street_upper := pyStrip (pyUpper street_with_type)
    stripStreetType (stripDirectional (stripLeadArticle street_upper))

/-- `DaySpecificHybridMatcher.normalize_street_name`
(`production_hybrid_matcher_day_specific.py`, lines 113-117): uppercase and
remove every space. -/
def normalize_street_name (street_name : String) : String :=
  if street_name = "" then "" else pyReplaceDel (pyUpper street_name) " "

/-- The matcher's full corridor/street normalizer: extraction followed by
`normalize_street_name`, exactly as applied to both citation addresses and
schedule corridors. -/
def normalizedStreetToken (address : String) : String :=
  normalize_street_name (extract_street_from_address address)

/-- A latitude/longitude pair.  Python floats in this pipeline hold exact
decimal data, modelled as `ℚ`. -/
structure GeoPoint where
  lat : ℚ
  lon : ℚ
deriving DecidableEq

/-- One row of the day-specific schedule table as the production matcher
consumes it; `parsed_coords` is the `parse_linestring_coordinates` result
column (`none` when the geometry was missing or unparsable). -/
structure MatcherSchedule where
  schedule_id : Nat
  corridor : String
  weekday : String
  scheduled_from_hour : ℚ
  scheduled_to_hour : ℚ
  parsed_coords : Option (List GeoPoint)
deriving DecidableEq

/-- Python `int()` applied to a real value: truncation toward zero,
computed on `ℚ` as T-division of numerator by denominator. -/
def pyInt (q : ℚ) : ℤ := q.num.tdiv q.den

/-- `DaySpecificHybridMatcher.lat_lon_to_grid`
(`production_hybrid_matcher_day_specific.py`, lines 119-125). -/
def lat_lon_to_grid (grid_size : ℚ) (lat lon : ℚ) : ℤ × ℤ :=
  (pyInt (lat * 111000 / grid_size), pyInt (lon * 111000 * (794 / 1000) / grid_size))

/-- The geometry filter in `build_hybrid_index` (line 153): only rows whose
`parsed_coords` is non-null are kept as `self.schedules`. -/
def validSchedules (rows : List MatcherSchedule) : List MatcherSchedule :=
  rows.filter (fun r => r.parsed_coords.isSome)

/-- The grid cell a schedule is inserted at in `build_hybrid_index`
(lines 158-163): the cell of the first vertex of its polyline; `none` when
the row has no usable coordinate list (`if coords:` is falsy). -/
def firstVertexCell (grid_size : ℚ) (r : MatcherSchedule) : Option (ℤ × ℤ) :=
  match r.parsed_coords with
  | some (v :: _) => some (lat_lon_to_grid grid_size v.lat v.lon)
  | _ => none

/-- One bucket of the `spatial_grid` defaultdict built by
`build_hybrid_index`: the loop appends index `i` to the bucket of the cell
of schedule `i`'s first vertex, so a bucket holds, in index order, exactly
the indices whose first vertex lands in that cell. -/
def spatialGridBucket (grid_size : ℚ) (schedules : List MatcherSchedule)
    (cell : ℤ × ℤ) : List Nat :=
  (List.range schedules.length).filter (fun i =>
    (schedules[i]?).any (fun r => firstVertexCell grid_size r == some cell))

/-- The `range(-r, r + 1)` offsets of the query loop in
`hybrid_match_citation` (lines 189-193). -/
def searchOffsets (r : Nat) : List ℤ :=
  (List.range (2 * r + 1)).map (fun (i : Nat) => (i : ℤ) - (r : ℤ))

/-- Step 1 of `hybrid_match_citation` (lines 185-193): union of the buckets
of the `(2r+1) × (2r+1)` block of cells around the citation's cell. -/
def hybridSpatialCandidates (grid_size : ℚ) (search_radius : Nat)
    (schedules : List MatcherSchedule) (lat lon : ℚ) : List Nat :=
  let g := lat_lon_to_grid grid_size lat lon
  (searchOffsets search_radius).flatMap (fun dx =>
    (searchOffsets search_radius).flatMap (fun dy =>
      spatialGridBucket grid_size schedules (g.1 + dx, g.2 + dy)))

/-- Step 2 of `hybrid_match_citation` (lines 198-212): when the citation's
normalized street token is non-empty, keep candidates whose normalized
corridor contains it, is contained in it, or equals it; when the token is
empty, keep all spatial candidates. -/
def streetNameFilter (citation_street_norm : String)
    (schedules : List MatcherSchedule) (cands : List Nat) : List Nat :=
  if citation_street_norm ≠ "" then
    cands.filter (fun i =>
      (schedules[i]?).any (fun s =>
        let sn := normalizedStreetToken s.corridor
        strContains sn citation_street_norm || strContains citation_street_norm sn ||
          citation_street_norm == sn))
  else cands

/-- `citation_time_decimal` of `hybrid_match_citation` (line 221):
`dt.hour + dt.minute / 60.0`. -/
def citationTimeDecimal (hour minute : ℕ) : ℚ := hour + minute / 60

/-- Step 3 of `hybrid_match_citation` (lines 227-237): keep candidates whose
weekday string equals the citation's and whose hour window satisfies
`from_hour <= citation_time_decimal <= to_hour` (both comparisons are `<=`
in the source). -/
def dayTimeFilter (schedules : List MatcherSchedule) (citation_weekday : String)
    (t : ℚ) (cands : List Nat) : List Nat :=
  cands.filter (fun i =>
    (schedules[i]?).any (fun s =>
      s.weekday == citation_weekday &&
        decide (s.scheduled_from_hour ≤ t) && decide (t ≤ s.scheduled_to_hour)))

/-- `DaySpecificHybridMatcher.calculate_distance_to_schedule`
(lines 127-140): the minimum, over the polyline's vertices, of the
point-to-vertex distance; `none` models the `float('inf')` returned for an
empty coordinate list.  The geodesic distance function itself is an external
collaborator (`geopy.distance.geodesic`), taken as a parameter `d`. -/
def calculate_distance_to_schedule (d : GeoPoint → GeoPoint → ℚ)
    (p : GeoPoint) (coords : List GeoPoint) : Option ℚ :=
  match coords with
  | [] => none
  | c :: cs => some (cs.foldl (fun m x => min m (d p x)) (d p c))

/-- Step 4 acceptance of `hybrid_match_citation` (line 250): a candidate is
kept when `distance <= max_distance_meters`. -/
def distanceKeep (d : GeoPoint → GeoPoint → ℚ) (max_distance : ℚ)
    (p : GeoPoint) (coords : List GeoPoint) : Bool :=
  match calculate_distance_to_schedule d p coords with
  | none => false
  | some x => decide (x ≤ max_distance)

/-- Point at fraction `t` along the segment from `a` to `b`, interpolated
componentwise (archived matcher `_point_to_line_segment_distance`,
lines 171-174). -/
def segmentSample (a b : GeoPoint) (t : ℚ) : GeoPoint :=
  ⟨a.lat + t * (b.lat - a.lat), a.lon + t * (b.lon - a.lon)⟩

/-- The five sample fractions of the spec's distance stage. -/
def sampleFractions : List ℚ := [0, 1/4, 1/2, 3/4, 1]

/-- The point-to-polyline distance the spec's §4.4 stage 4 describes (and
that the archived development matcher implements): the minimum over every
consecutive vertex pair and every sample fraction in `{0, 1/4, 1/2, 3/4, 1}`
of the distance from the citation point to the sampled point. -/
def specSampledDistance (d : GeoPoint → GeoPoint → ℚ)
    (p : GeoPoint) (coords : List GeoPoint) : Option ℚ :=
  let ds := (coords.zip coords.tail).flatMap
    (fun ab => sampleFractions.map (fun t => d p (segmentSample ab.1 ab.2 t)))
  match ds with
  | [] => none
  | x :: xs => some (xs.foldl min x)

/-- Acceptance under the spec's sampled distance: kept when the sampled
minimum is at most `max_distance`. -/
def specSampledKeep (d : GeoPoint → GeoPoint → ℚ) (max_distance : ℚ)
    (p : GeoPoint) (coords : List GeoPoint) : Bool :=
  match specSampledDistance d p coords with
  | none => false
  | some x => decide (x ≤ max_distance)

/-- General `str.replace(old, new)` helper on character lists, with fuel,
replacing non-overlapping occurrences of `o :: os` left to right. -/
def pyReplaceAux (o : Char) (os new : List Char) : Nat → List Char → List Char
  | 0, _ => []
  | _ + 1, [] => []
  | n + 1, c :: rest =>
    if c = o && os.isPrefixOf rest then new ++ pyReplaceAux o os new n (rest.drop os.length)
    else c :: pyReplaceAux o os new n rest

/-- Python `s.replace(old, new)` for non-empty `old`. -/
def pyReplace (s old new : String) : String :=
  match old.data with
  | [] => s
  | o :: os => ⟨pyReplaceAux o os new.data s.data.length s.data⟩

/-- Decimal value of a digit run, as produced by `int(...)` on the captured
group of digits. -/
def digitsToNat (ds : List Char) : Nat :=
  ds.foldl (fun n c => 10 * n + (c.toNat - 48)) 0

/-- `ProductionCitationProcessor.extract_street_number`
(`production_citation_processor.py`, lines 236-239): the value of the
leading digit run of the stripped address, or `none`. -/
def extract_street_number (address : String) : Option Nat :=
  let ds := (pyStrip address).data.takeWhile (fun c => c.isDigit)
  if ds.isEmpty then none else some (digitsToNat ds)

/-- The processor's `suffix_map` (lines 243-247), in insertion order. -/
def processorSuffixMap : List (String × String) :=
  [(" STREET", " ST"), (" AVENUE", " AVE"), (" BOULEVARD", " BLVD"),
   (" DRIVE", " DR"), (" COURT", " CT"), (" PLACE", " PL"),
   (" LANE", " LN"), (" ROAD", " RD"), (" PARKWAY", " PKWY")]

/-- `ProductionCitationProcessor.normalize_street_suffix` (lines 241-254):
uppercase, then for the first map entry whose long form ends the string,
apply `str.replace` (all occurrences) and return. -/
def normalize_street_suffix (street_name : String) : String :=
  let street_upper := pyUpper street_name
  match processorSuffixMap.find? (fun fs => pyEndsWith street_upper fs.1) with
  | some fs => pyReplace street_upper fs.1 fs.2
  | none => street_upper

/-- `re.sub(r'^\d+\s*', '', s)`: delete a leading digit run together with
the whitespace following it, when a digit run is present. -/
def stripLeadNumber (s : String) : String :=
  let l := s.data
  if (l.takeWhile (fun c => c.isDigit)).isEmpty then s
  else ⟨(l.dropWhile (fun c => c.isDigit)).dropWhile pyIsSpace⟩

/-- `ProductionCitationProcessor.extract_street_name` (lines 256-259). -/
def extract_street_name (address : String) : String :=
  normalize_street_suffix (stripLeadNumber (pyStrip address))

/-- Suffix tokens removed (everywhere, by repeated `str.replace`) to form
`orig_core` in `validate_geocoding_result` (lines 271-273). -/
def coreStripSuffixes : List String :=
  [" ST", " AVE", " BLVD", " DR", " CT", " PL", " WAY", " LN", " RD", " PKWY"]

/-- Marker substrings whose presence makes the returned address a "general
reference" in `validate_geocoding_result` (lines 281-283). -/
def generalMarkers : List String :=
  ["AVENUE,", "STREET,", "BOULEVARD,", "DISTRICT,", "NEIGHBORHOOD,", "SAN FRANCISCO"]

/-- The score accumulation of `validate_geocoding_result` (lines 285-289):
start at 0, add 40 for a street match, 50 for a number match, 10 when the
returned address is not a general reference. -/
def confidenceScore (street_in_result number_in_result is_general : Bool) : Nat :=
  (if street_in_result then 40 else 0) + (if number_in_result then 50 else 0) +
    (if !is_general then 10 else 0)

/-- The tier thresholds of `validate_geocoding_result` (lines 291-296). -/
def confidenceLevel (score : Nat) : String :=
  if score ≥ 80 then "HIGH" else if score ≥ 50 then "MEDIUM" else "LOW"

/-- The street-match check of `validate_geocoding_result` (lines 270-275):
strip the short suffix tokens from the extracted street everywhere, strip
whitespace, and test containment in the uppercased returned address. -/
def streetInResult (original_address returned_address : String) : Bool :=
  let orig_street := extract_street_name original_address
  let orig_core := coreStripSuffixes.foldl (fun s suf => pyReplaceDel s suf) orig_street
  strContains (pyUpper returned_address) (pyStrip orig_core)

/-- The number-match check of `validate_geocoding_result` (lines 277-278):
the decimal rendering of the leading street number occurs literally in the
returned address. -/
def numberInResult (original_address returned_address : String) : Bool :=
  match extract_street_number original_address with
  | some n => strContains returned_address (toString n)
  | none => false

/-- The general-reference check of `validate_geocoding_result`
(lines 280-283). -/
def isGeneralReference (returned_address : String) : Bool :=
  generalMarkers.any (fun m => strContains (pyUpper returned_address) m)

/-- `ProductionCitationProcessor.validate_geocoding_result` (lines 261-298):
confidence score and level for a geocoded address pair. -/
def validate_geocoding_result (original_address returned_address : String) :
    Nat × String :=
  let score := confidenceScore (streetInResult original_address returned_address)
    (numberInResult original_address returned_address)
    (isGeneralReference returned_address)
  (score, confidenceLevel score)

/-- The confidence outcome of `ProductionCitationProcessor.process_citation`
(lines 341-363) as a function of the geocoder's result: a non-result leaves
the initial `confidence = 'FAILED'`, `confidence_score = 0`; a returned
address is validated. -/
def process_citation_confidence (address : String) (geocoded : Option String) :
    Nat × String :=
  match geocoded with
  | some returned => validate_geocoding_result address returned
  | none => (0, "FAILED")

/-- `CitationScheduleMatcher.calculate_time_relevance` (archived
`citation_schedule_matcher.py`, lines 310-319). -/
def calculate_time_relevance (citation_hour from_hour to_hour : ℤ) : String :=
  if from_hour ≤ citation_hour ∧ citation_hour ≤ to_hour then "DURING_SCHEDULE"
  else if to_hour < citation_hour ∧ citation_hour ≤ to_hour + 2 then "AFTER_SCHEDULE"
  else if citation_hour < from_hour ∧ from_hour - 1 ≤ citation_hour then "BEFORE_SCHEDULE"
  else "OUTSIDE_SCHEDULE"

/-- One row of the archived matcher's raw-match table, with the fields read
by `calculate_estimated_citation_times`. -/
structure ArchiveMatch where
  schedule_id : Nat
  citation_hour : ℤ
  time_relevance : String
deriving DecidableEq

/-- One row of the archived matcher's estimates table; the numeric
statistics columns are computed from `citation_count` many hours and are
never read by later control flow, so only the counts are carried. -/
structure ArchiveEstimate where
  schedule_id : Nat
  total_citations : Nat
  citation_count : Nat
deriving DecidableEq

/-- The matches the archived aggregator deems relevant for one group
(lines 355-363): the `DURING_SCHEDULE` ones when there are at least 3 of
them, otherwise the `DURING_SCHEDULE` plus `AFTER_SCHEDULE` ones. -/
def relevantMatches (group : List ArchiveMatch) : List ArchiveMatch :=
  let during := group.filter (·.time_relevance == "DURING_SCHEDULE")
  if during.length ≥ 3 then during
  else group.filter (fun m =>
    m.time_relevance == "DURING_SCHEDULE" || m.time_relevance == "AFTER_SCHEDULE")

/-- The loop body of `calculate_estimated_citation_times` for one
`schedule_id` group (lines 354-387): `none` models the `continue` taken
when fewer than 3 relevant matches exist. -/
def estimateForSid (ms : List ArchiveMatch) (sid : Nat) : Option ArchiveEstimate :=
  let group := ms.filter (·.schedule_id == sid)
  if (relevantMatches group).length < 3 then none
  else some { schedule_id := sid, total_citations := group.length,
              citation_count := (relevantMatches group).length }

/-- `CitationScheduleMatcher.calculate_estimated_citation_times`
(lines 347-396): group matches by `schedule_id` (pandas `groupby` iterates
keys in ascending order); prefer `DURING_SCHEDULE` matches, fall back to
`DURING + AFTER` when fewer than 3, and skip (`continue`) the group
entirely when the relevant count is still below 3. -/
def calculate_estimated_citation_times (ms : List ArchiveMatch) :
    List ArchiveEstimate :=
  (((ms.map (·.schedule_id)).dedup).insertionSort (· ≤ ·)).filterMap (estimateForSid ms)

/-- A normalized schedule row, the `_normalize_row` output of the production
cleaners (`clean_schedule_data_day_specific.py`, lines 145-196;
`clean_schedule_data_simple.py` produces the same shape): weekday and
week-of-month flags are 0/1 integers. -/
structure NormalizedRow where
  cnn : Nat
  corridor : String
  limits : String
  cnn_right_left : String
  block_side : String
  from_hour : ℤ
  to_hour : ℤ
  line : String
  holidays : Nat
  monday : Nat
  tuesday : Nat
  wednesday : Nat
  thursday : Nat
  friday : Nat
  saturday : Nat
  sunday : Nat
  week1 : Nat
  week2 : Nat
  week3 : Nat
  week4 : Nat
  week5 : Nat
deriving DecidableEq

/-- The `location_columns` grouping key of both production cleaners
(`['Corridor', 'Limits', 'CNNRightLeft', 'BlockSide', 'FromHour',
'ToHour']`). -/
structure LocKey where
  corridor : String
  limits : String
  cnn_right_left : String
  block_side : String
  from_hour : ℤ
  to_hour : ℤ
deriving DecidableEq

/-- The grouping key of a normalized row. -/
def locKey (r : NormalizedRow) : LocKey :=
  { corridor := r.corridor, limits := r.limits, cnn_right_left := r.cnn_right_left,
    block_side := r.block_side, from_hour := r.from_hour, to_hour := r.to_hour }

/-- The distinct grouping keys in first-appearance order.  (pandas
`groupby` sorts group keys; key order affects no property proved in this
development, so first-appearance order is used.) -/
def firstAppearanceKeys (rows : List NormalizedRow) : List LocKey :=
  rows.foldl (fun acc r => if acc.contains (locKey r) then acc else acc ++ [locKey r]) []

/-- The `max` aggregation of a 0/1 (or non-negative integer) column over a
group. -/
def maxCol (f : NormalizedRow → Nat) (grp : List NormalizedRow) : Nat :=
  (grp.map f).foldl max 0

/-- A combined (grouped) schedule row: Step 2 output of both production
cleaners. -/
structure CombinedRow where
  cnn : Nat
  corridor : String
  limits : String
  cnn_right_left : String
  block_side : String
  from_hour : ℤ
  to_hour : ℤ
  line : String
  holidays : Nat
  monday : Nat
  tuesday : Nat
  wednesday : Nat
  thursday : Nat
  friday : Nat
  saturday : Nat
  sunday : Nat
  week1 : Nat
  week2 : Nat
  week3 : Nat
  week4 : Nat
  week5 : Nat
  record_count : Nat
deriving DecidableEq

/-- Step 2 of both production cleaners (`clean_schedule_data_simple.py`
lines 41-68, `clean_schedule_data_day_specific.py` lines 46-73): group by
the location columns; `max` over the seven weekday flags, the five
week-of-month flags and `Holidays`; `first` for `CNN` and `Line`; group
size as `RecordCount`. -/
def clean_combine_rows (rows : List NormalizedRow) : List CombinedRow :=
  (firstAppearanceKeys rows).map (fun k =>
    let grp := rows.filter (fun r => locKey r == k)
    { cnn := ((grp.head?).map (·.cnn)).getD 0,
      corridor := k.corridor, limits := k.limits,
      cnn_right_left := k.cnn_right_left, block_side := k.block_side,
      from_hour := k.from_hour, to_hour := k.to_hour,
      line := ((grp.head?).map (·.line)).getD "",
      holidays := maxCol (·.holidays) grp,
      monday := maxCol (·.monday) grp, tuesday := maxCol (·.tuesday) grp,
      wednesday := maxCol (·.wednesday) grp, thursday := maxCol (·.thursday) grp,
      friday := maxCol (·.friday) grp, saturday := maxCol (·.saturday) grp,
      sunday := maxCol (·.sunday) grp,
      week1 := maxCol (·.week1) grp, week2 := maxCol (·.week2) grp,
      week3 := maxCol (·.week3) grp, week4 := maxCol (·.week4) grp,
      week5 := maxCol (·.week5) grp,
      record_count := grp.length })

/-- One day-specific cleaned schedule row (Step 3 output of
`clean_schedule_data_day_specific`). -/
structure DaySpecificRow where
  weekday : String
  cnn : Nat
  corridor : String
  limits : String
  cnn_right_left : String
  block_side : String
  scheduled_from_hour : ℤ
  scheduled_to_hour : ℤ
  week1 : Nat
  week2 : Nat
  week3 : Nat
  week4 : Nat
  week5 : Nat
  holidays : Nat
  line : String
  record_count : Nat
deriving DecidableEq

/-- Step 3 of `clean_schedule_data_day_specific` (lines 75-102): one output
row per active weekday flag of a combined row. -/
def expandRow (s : CombinedRow) : List DaySpecificRow :=
  ([("Monday", s.monday), ("Tuesday", s.tuesday), ("Wednesday", s.wednesday),
    ("Thursday", s.thursday), ("Friday", s.friday), ("Saturday", s.saturday),
    ("Sunday", s.sunday)]).filterMap (fun dw =>
      if dw.2 = 1 then
        some { weekday := dw.1, cnn := s.cnn, corridor := s.corridor,
               limits := s.limits, cnn_right_left := s.cnn_right_left,
               block_side := s.block_side,
               scheduled_from_hour := s.from_hour, scheduled_to_hour := s.to_hour,
               week1 := s.week1, week2 := s.week2, week3 := s.week3,
               week4 := s.week4, week5 := s.week5, holidays := s.holidays,
               line := s.line, record_count := s.record_count }
      else none)

/-- `DaySpecificScheduleDataCleaner.clean_schedule_data_day_specific`
Steps 2-3 (lines 42-102), from normalized rows to day-specific rules. -/
def clean_schedule_data_day_specific (rows : List NormalizedRow) : List DaySpecificRow :=
  (clean_combine_rows rows).flatMap expandRow

/-- One row of the schedule-definitions table the aggregator consumes
(`day_specific_sweeper_estimates_*.csv`, produced one-for-one from the
matcher's kept schedules by `generate_day_specific_estimates`). -/
structure EstimateRow where
  schedule_id : Nat
  cnn : Nat
  corridor : String
  limits : String
  cnn_right_left : String
  block_side : String
  weekday : String
  scheduled_from_hour : ℤ
  scheduled_to_hour : ℤ
  week1 : Nat
  week2 : Nat
  week3 : Nat
  week4 : Nat
  week5 : Nat
  line : String
deriving DecidableEq

/-- `MatchBasedAggregator.create_week_pattern_string`
(`aggregate_schedules_from_matches.py`, lines 35-37). -/
def week_pattern (r : EstimateRow) : String :=
  toString r.week1 ++ toString r.week2 ++ toString r.week3 ++
    toString r.week4 ++ toString r.week5

/-- The aggregation group key assembled from `cnn`, `cnn_right_left` and the
week pattern with underscore separators, as at lines 173, 282 and 293 of
`aggregate_schedules_from_matches.py`. -/
def aggKey (r : EstimateRow) : String :=
  toString r.cnn ++ "_" ++ r.cnn_right_left ++ "_" ++ week_pattern r

/-- The `schedule_lookup` dict (lines 138-156): keyed by `schedule_id`,
later rows overwriting earlier ones. -/
def schedule_lookup (schedules : List EstimateRow) (sid : Nat) : Option EstimateRow :=
  schedules.reverse.find? (·.schedule_id == sid)

/-- One row of the aggregator's raw-match input, with the fields its control
flow reads. -/
structure AggMatchRow where
  schedule_id : Nat
  citation_time : ℚ
deriving DecidableEq

/-- State of one entry of the `aggregation_groups` defaultdict
(lines 159-197): the key, the appended citation times, and the
`schedule_info` stored when the entry is created. -/
structure AggGroup where
  key : String
  citation_times : List ℚ
  info : EstimateRow
deriving DecidableEq

/-- Processing of one match row (lines 167-197): skip matches whose
`schedule_id` is not in the lookup; otherwise append the citation time to
the keyed group, creating the group (and storing `schedule_info`) on first
touch.  The per-match hour-array accumulation only feeds display columns
and is not carried. -/
def addMatchToGroups (lookup : Nat → Option EstimateRow) (groups : List AggGroup)
    (m : AggMatchRow) : List AggGroup :=
  match lookup m.schedule_id with
  | none => groups
  | some sch =>
    let k := aggKey sch
    if groups.any (·.key == k) then
      groups.map (fun g =>
        if g.key == k then { g with citation_times := g.citation_times ++ [m.citation_time] }
        else g)
    else groups ++ [{ key := k, citation_times := [m.citation_time], info := sch }]

/-- The full `aggregation_groups` construction over the match table. -/
def buildAggGroups (schedules : List EstimateRow) (matchRows : List AggMatchRow) :
    List AggGroup :=
  matchRows.foldl (addMatchToGroups (schedule_lookup schedules)) []

/-- One output row of the aggregator.  Of its columns, only `clean_id`
steers control flow (the phase-2 existence check); `citation_count` is
carried as the datum the claims inspect; hour-array, summary and statistic
strings are write-only and omitted. -/
structure AggRow where
  clean_id : String
  citation_count : Nat
deriving DecidableEq

/-- First output loop (lines 199-276): one row per aggregation group. -/
def phase1Rows (groups : List AggGroup) : List AggRow :=
  groups.map (fun g => { clean_id := g.key, citation_count := g.citation_times.length })

/-- Second output loop (lines 291-367): for each schedule row whose key has
no citations, either merge hour strings into the already-appended row for
that key (adding no new row) or append a fresh `citation_count = 0` row. -/
def addMissingSchedules (keys_without : List String) (schedules : List EstimateRow)
    (rows : List AggRow) : List AggRow :=
  schedules.foldl (fun rs r =>
    if keys_without.contains (aggKey r) then
      if rs.any (·.clean_id == aggKey r) then rs
      else rs ++ [{ clean_id := aggKey r, citation_count := 0 }]
    else rs) rows

/-- `MatchBasedAggregator.aggregate_from_matches` (lines 120-398), reduced
to its row-producing skeleton: group matches, emit one row per group, then
left-join in the schedule keys without citations (lines 279-367). -/
def aggregate_from_matches (matchRows : List AggMatchRow) (schedules : List EstimateRow) :
    List AggRow :=
  let groups := buildAggGroups schedules matchRows
  let rows := phase1Rows groups
  let all_schedule_keys := schedules.map aggKey
  let keys_with := groups.map (·.key)
  let keys_without := all_schedule_keys.filter (fun k => !keys_with.contains k)
  addMissingSchedules keys_without schedules rows

/-- A canonical day-specific rule together with its geometry parse result,
as it enters `build_hybrid_index`. -/
structure CanonicalRule extends EstimateRow where
  parsed_coords : Option (List GeoPoint)
deriving DecidableEq

/-- The schedules table the aggregator receives when the pipeline is run
end to end: `build_hybrid_index` (line 153) drops rules whose geometry
failed to parse, and `generate_day_specific_estimates` (lines 301-361)
emits exactly one estimate row per kept rule. -/
def matcherEstimates (canon : List CanonicalRule) : List EstimateRow :=
  (canon.filter (fun r => r.parsed_coords.isSome)).map (·.toEstimateRow)

/-- End-to-end aggregation over a canonical rule set: the aggregator run on
the estimates table derived from it. -/
def pipelineAggregate (matchRows : List AggMatchRow) (canon : List CanonicalRule) :
    List AggRow :=
  aggregate_from_matches matchRows (matcherEstimates canon)

/-- Specification helper for counting the rows appended by the aggregator's
second output loop: the schedule keys that lie in `kw` and are not yet among
the accumulated row ids, each taken at its first occurrence. -/
def newKeys (kw : List String) : List String → List EstimateRow → List String
  | _, [] => []
  | ids, r :: rest =>
    if kw.contains (aggKey r) && !(ids.contains (aggKey r)) then
      aggKey r :: newKeys kw (ids ++ [aggKey r]) rest
    else newKeys kw ids rest

end SweepVerify

namespace SweepVerify

/-! General lemmas about the embedded primitives. -/

theorem pyInt_eq (q : ℚ) : pyInt q = if 0 ≤ q then ⌊q⌋ else ⌈q⌉ := by
  unfold pyInt
  split
  · rename_i h
    rw [Int.tdiv_eq_ediv (Rat.num_nonneg.mpr h) (Int.ofNat_nonneg q.den), Rat.floor_def]
  · rename_i h
    push_neg at h
    have hn : q.num ≤ 0 := (Rat.num_nonpos).mpr h.le
    have h1 : q.num.tdiv q.den = -((-q.num).tdiv q.den) := by
      rw [Int.neg_tdiv, Int.neg_neg]
    rw [h1, Int.tdiv_eq_ediv (by omega) (Int.ofNat_nonneg q.den)]
    have h2 : ⌊-q⌋ = (-q.num) / (q.den : ℤ) := by
      rw [Rat.floor_def, Rat.num_neg_eq_neg_num]
      congr 1
    rw [← h2, Int.floor_neg, Int.neg_neg]

theorem pyInt_intCast (n : ℤ) : pyInt ((n : ℚ)) = n := by
  rw [pyInt_eq]
  split <;> simp

theorem pyInt_mono {a b : ℚ} (h : a ≤ b) : pyInt a ≤ pyInt b := by
  rw [pyInt_eq, pyInt_eq]
  split <;> split
  · exact Int.floor_le_floor h
  · rename_i h1 h2
    push_neg at h2
    exact absurd (le_trans h1 h) (not_le.mpr h2)
  · rename_i h1 h2
    push_neg at h1
    calc ⌈a⌉ ≤ 0 := Int.ceil_le.mpr (by exact_mod_cast h1.le)
    _ ≤ ⌊b⌋ := Int.floor_nonneg.mpr h2
  · exact Int.ceil_le_ceil h

theorem pyInt_add_nat (a : ℚ) (n : ℕ) : pyInt (a + n) ≤ pyInt a + n := by
  have hcast : ((n : ℚ)) = ((n : ℤ) : ℚ) := by push_cast; ring
  rw [pyInt_eq, pyInt_eq]
  split <;> split
  · rw [hcast, Int.floor_add_int]
  · rw [hcast, Int.floor_add_int]
    have : ⌊a⌋ ≤ ⌈a⌉ := Int.floor_le_ceil a
    omega
  · rename_i h1 h2
    exact absurd (by positivity : (0 : ℚ) ≤ a + n) h1
  · rw [hcast, Int.ceil_add_int]

theorem pyInt_sub_nat (a : ℚ) (n : ℕ) : pyInt a - n ≤ pyInt (a - n) := by
  have h := pyInt_add_nat (a - n) n
  rw [sub_add_cancel] at h
  omega

theorem pyInt_close {x y c : ℚ} {r : ℕ} (hc : 0 < c) (h : |x - y| ≤ (r : ℚ) * c) :
    |pyInt (x / c) - pyInt (y / c)| ≤ (r : ℤ) := by
  rw [abs_le] at h ⊢
  obtain ⟨hl, hr⟩ := h
  have hc' : c ≠ 0 := ne_of_gt hc
  have key : (y + r * c) / c = y / c + r := by
    rw [add_div, mul_div_assoc, div_self hc', mul_one]
  have key2 : (y - r * c) / c = y / c - r := by
    rw [sub_div, mul_div_assoc, div_self hc', mul_one]
  constructor
  · have h1 : y - r * c ≤ x := by linarith
    have h2 : y / c - r ≤ x / c := by
      rw [← key2]
      exact (div_le_div_iff_of_pos_right hc).mpr h1
    have h3 := pyInt_mono h2
    have h4 := pyInt_sub_nat (y / c) r
    omega
  · have h1 : x ≤ y + r * c := by linarith
    have h2 : x / c ≤ y / c + r := by
      rw [← key]
      exact (div_le_div_iff_of_pos_right hc).mpr h1
    have h3 := pyInt_mono h2
    have h4 := pyInt_add_nat (y / c) r
    omega

theorem searchOffsets_mem (r : Nat) (dx : ℤ) :
    dx ∈ searchOffsets r ↔ -(r : ℤ) ≤ dx ∧ dx ≤ r := by
  unfold searchOffsets
  constructor
  · intro h
    obtain ⟨i, hi, heq⟩ := List.mem_map.mp h
    rw [List.mem_range] at hi
    omega
  · rintro ⟨h1, h2⟩
    exact List.mem_map.mpr ⟨(dx + r).toNat, List.mem_range.mpr (by omega), by omega⟩

theorem spatialGridBucket_mem (gs : ℚ) (schedules : List MatcherSchedule)
    (cell : ℤ × ℤ) (i : Nat) :
    i ∈ spatialGridBucket gs schedules cell ↔
      ∃ s, schedules[i]? = some s ∧ firstVertexCell gs s = some cell := by
  unfold spatialGridBucket
  rw [List.mem_filter, List.mem_range]
  constructor
  · rintro ⟨hlen, hany⟩
    cases h : schedules[i]? with
    | none => rw [h] at hany; exact absurd hany (by simp [Option.any])
    | some s =>
      rw [h] at hany
      simp only [Option.any, beq_iff_eq] at hany
      exact ⟨s, rfl, hany⟩
  · rintro ⟨s, hs, hcell⟩
    have hlen : i < schedules.length := by
      by_contra hc
      rw [List.getElem?_eq_none (by omega)] at hs
      exact Option.noConfusion hs
    refine ⟨hlen, ?_⟩
    rw [hs]
    simp [Option.any, hcell]

theorem hybridSpatialCandidates_mem (gs : ℚ) (r : Nat)
    (schedules : List MatcherSchedule) (lat lon : ℚ) (i : Nat) :
    i ∈ hybridSpatialCandidates gs r schedules lat lon ↔
      ∃ s, schedules[i]? = some s ∧ ∃ cell, firstVertexCell gs s = some cell ∧
        |cell.1 - (lat_lon_to_grid gs lat lon).1| ≤ (r : ℤ) ∧
        |cell.2 - (lat_lon_to_grid gs lat lon).2| ≤ (r : ℤ) := by
  unfold hybridSpatialCandidates
  simp only [List.mem_flatMap]
  constructor
  · rintro ⟨dx, hdx, dy, hdy, hbucket⟩
    rw [searchOffsets_mem] at hdx hdy
    obtain ⟨s, hs, hcell⟩ := (spatialGridBucket_mem _ _ _ _).mp hbucket
    refine ⟨s, hs, _, hcell, ?_, ?_⟩ <;> simp only [abs_le] <;> omega
  · rintro ⟨s, hs, cell, hcell, hx, hy⟩
    rw [abs_le] at hx hy
    refine ⟨cell.1 - (lat_lon_to_grid gs lat lon).1, (searchOffsets_mem _ _).mpr (by omega),
      cell.2 - (lat_lon_to_grid gs lat lon).2, (searchOffsets_mem _ _).mpr (by omega), ?_⟩
    apply (spatialGridBucket_mem _ _ _ _).mpr
    refine ⟨s, hs, ?_⟩
    rw [hcell]
    congr 1
    ext <;> simp

theorem toNat_ofNat_valid (n : Nat) (h : n < 55296) : (Char.ofNat n).toNat = n := by
  rw [Char.ofNat, dif_pos (Or.inl h)]
  rfl

theorem toUpper_toNat (c : Char) (h1 : 97 ≤ c.toNat) (h2 : c.toNat ≤ 122) :
    (Char.toUpper c).toNat = c.toNat - 32 := by
  unfold Char.toUpper
  rw [if_pos ⟨h1, h2⟩]
  exact toNat_ofNat_valid _ (by omega)

theorem toUpper_eq_self (c : Char) (h : ¬(97 ≤ c.toNat ∧ c.toNat ≤ 122)) :
    Char.toUpper c = c := by
  unfold Char.toUpper
  exact if_neg h

theorem toUpper_idem (c : Char) : Char.toUpper (Char.toUpper c) = Char.toUpper c := by
  by_cases h : 97 ≤ c.toNat ∧ c.toNat ≤ 122
  · have hup := toUpper_toNat c h.1 h.2
    apply toUpper_eq_self
    rw [hup]
    omega
  · rw [toUpper_eq_self c h]
    exact toUpper_eq_self c h

theorem toUpper_eq_space_iff (c : Char) : (Char.toUpper c = ' ') ↔ c = ' ' := by
  constructor
  · intro h
    by_cases hc : 97 ≤ c.toNat ∧ c.toNat ≤ 122
    · have h1 := toUpper_toNat c hc.1 hc.2
      rw [h] at h1
      have h2 : (' ' : Char).toNat = 32 := by decide
      omega
    · rwa [toUpper_eq_self c hc] at h
  · intro h
    subst h
    rfl

theorem pyRemoveOccAux_single (o : Char) :
    ∀ (l : List Char) (n : Nat), l.length ≤ n →
      pyRemoveOccAux o [] n l = l.filter (fun c => !(decide (c = o)))
  | [], 0, _ => rfl
  | [], n + 1, _ => rfl
  | c :: rest, n + 1, h => by
    simp only [pyRemoveOccAux, List.isPrefixOf, Bool.and_true, List.drop_zero, List.length_nil]
    by_cases hc : c = o
    · rw [if_pos (by simp [hc]), List.filter_cons]
      rw [pyRemoveOccAux_single o rest n (by simpa using h)]
      simp [hc]
    · rw [if_neg (by simp [hc]), List.filter_cons]
      rw [pyRemoveOccAux_single o rest n (by simpa using h)]
      simp [hc]

theorem normalize_data (s : String) (h : s ≠ "") :
    normalize_street_name s =
      ⟨(s.data.map Char.toUpper).filter (fun c => !(decide (c = ' ')))⟩ := by
  unfold normalize_street_name
  rw [if_neg h]
  unfold pyReplaceDel pyRemoveOcc pyUpper
  simp only
  rw [pyRemoveOccAux_single ' ' _ _ (by simp)]

theorem filter_space_map_toUpper (l : List Char) :
    (l.map Char.toUpper).filter (fun c => !(decide (c = ' '))) =
      (l.filter (fun c => !(decide (c = ' ')))).map Char.toUpper := by
  rw [List.filter_map]
  congr 1
  apply List.filter_congr
  intro c _
  simp only [Function.comp_apply]
  congr 1
  exact decide_eq_decide.mpr (toUpper_eq_space_iff c)

theorem map_toUpper_idem (l : List Char) :
    (l.map Char.toUpper).map Char.toUpper = l.map Char.toUpper := by
  rw [List.map_map]
  apply List.map_congr_left
  intro c _
  exact toUpper_idem c

theorem normalize_street_name_idem (s : String) :
    normalize_street_name (normalize_street_name s) = normalize_street_name s := by
  by_cases h : s = ""
  · subst h
    rfl
  · by_cases h2 : normalize_street_name s = ""
    · rw [h2]
      rfl
    · rw [normalize_data _ h2, normalize_data _ h]
      congr 1
      simp only [normalize_data _ h]
      rw [filter_space_map_toUpper]
      rw [List.filter_filter]
      simp only [Bool.and_self]
      rw [List.filter_map, map_toUpper_idem]

theorem confidenceScore_le_100 (a b c : Bool) : confidenceScore a b c ≤ 100 := by
  cases a <;> cases b <;> cases c <;> decide

theorem confidenceLevel_high {n : Nat} (h : 80 ≤ n) : confidenceLevel n = "HIGH" := by
  unfold confidenceLevel
  rw [if_pos h]

theorem confidenceLevel_medium {n : Nat} (h1 : 50 ≤ n) (h2 : n < 80) :
    confidenceLevel n = "MEDIUM" := by
  unfold confidenceLevel
  rw [if_neg (by omega), if_pos h1]

theorem confidenceLevel_low {n : Nat} (h : n < 50) : confidenceLevel n = "LOW" := by
  unfold confidenceLevel
  rw [if_neg (by omega), if_neg (by omega)]

theorem dayTimeFilter_mem (schedules : List MatcherSchedule) (wd : String) (t : ℚ)
    (cands : List Nat) (i : Nat) :
    i ∈ dayTimeFilter schedules wd t cands ↔
      i ∈ cands ∧ ∃ s, schedules[i]? = some s ∧ s.weekday = wd ∧
        s.scheduled_from_hour ≤ t ∧ t ≤ s.scheduled_to_hour := by
  rw [dayTimeFilter, List.mem_filter]
  apply and_congr_right
  intro _
  cases h : schedules[i]? with
  | none => simp [Option.any, h]
  | some s => simp [Option.any, h, Bool.and_eq_true, beq_iff_eq, and_assoc]

theorem foldl_min_le_iff (f : GeoPoint → ℚ) (M : ℚ) :
    ∀ (l : List GeoPoint) (a : ℚ),
      (l.foldl (fun m x => min m (f x)) a ≤ M ↔ a ≤ M ∨ ∃ x ∈ l, f x ≤ M)
  | [], a => by simp
  | x :: xs, a => by
    rw [List.foldl_cons, foldl_min_le_iff f M xs (min a (f x))]
    simp [min_le_iff, or_assoc]

end SweepVerify

namespace SweepVerify

/-! Lemmas about the aggregator's row-producing loops. -/

theorem any_eq_true_iff_mem_map {α : Type} (f : α → String) (l : List α) (k : String) :
    (l.any (fun x => f x == k) = true) ↔ k ∈ l.map f := by
  rw [List.any_eq_true]
  constructor
  · rintro ⟨x, hx, hbeq⟩
    rw [beq_iff_eq] at hbeq
    exact List.mem_map.mpr ⟨x, hx, hbeq⟩
  · intro h
    obtain ⟨x, hx, hfx⟩ := List.mem_map.mp h
    exact ⟨x, hx, beq_iff_eq.mpr hfx⟩

theorem addMissing_map_id (kw : List String) :
    ∀ (scheds : List EstimateRow) (rows : List AggRow),
      (addMissingSchedules kw scheds rows).map (·.clean_id) =
        rows.map (·.clean_id) ++ newKeys kw (rows.map (·.clean_id)) scheds
  | [], rows => by simp [addMissingSchedules, newKeys]
  | r :: rest, rows => by
    have hstep : addMissingSchedules kw (r :: rest) rows =
        addMissingSchedules kw rest
          (if kw.contains (aggKey r) then
            (if rows.any (·.clean_id == aggKey r) then rows
             else rows ++ [{ clean_id := aggKey r, citation_count := 0 }])
           else rows) := by
      simp [addMissingSchedules]
    rw [hstep]
    by_cases h1 : aggKey r ∈ kw
    · by_cases h2 : aggKey r ∈ rows.map (·.clean_id)
      · have hb2 : rows.any (·.clean_id == aggKey r) = true :=
          (any_eq_true_iff_mem_map _ _ _).mpr h2
        rw [if_pos (by simpa using h1), if_pos hb2]
        rw [addMissing_map_id kw rest rows]
        rw [newKeys, if_neg (by simp [h2])]
      · have hb2 : ¬(rows.any (·.clean_id == aggKey r) = true) := by
          rw [any_eq_true_iff_mem_map]
          exact h2
        rw [if_pos (by simpa using h1), if_neg hb2]
        rw [addMissing_map_id kw rest]
        rw [newKeys, if_pos (by simp [h1, h2])]
        simp
    · rw [if_neg (by simpa using h1)]
      rw [addMissing_map_id kw rest rows]
      rw [newKeys, if_neg (by simp [h1])]

theorem mem_newKeys_iff (kw : List String) :
    ∀ (scheds : List EstimateRow) (ids : List String) (x : String),
      (x ∈ ids ∨ x ∈ newKeys kw ids scheds) ↔
        (x ∈ ids ∨ (x ∈ scheds.map aggKey ∧ x ∈ kw))
  | [], ids, x => by simp [newKeys]
  | r :: rest, ids, x => by
    rw [newKeys]
    by_cases h1 : aggKey r ∈ kw
    · by_cases h2 : aggKey r ∈ ids
      · rw [if_neg (by simp [h2])]
        rw [mem_newKeys_iff kw rest ids x]
        simp only [List.map_cons, List.mem_cons]
        constructor
        · rintro (h | ⟨hr, hk⟩)
          · exact Or.inl h
          · exact Or.inr ⟨Or.inr hr, hk⟩
        · rintro (h | ⟨(rfl | hr), hk⟩)
          · exact Or.inl h
          · exact Or.inl h2
          · exact Or.inr ⟨hr, hk⟩
      · rw [if_pos (by simp [h1, h2])]
        have hIH := mem_newKeys_iff kw rest (ids ++ [aggKey r]) x
        simp only [List.mem_append, List.mem_singleton] at hIH
        simp only [List.map_cons, List.mem_cons]
        constructor
        · rintro (h | (rfl | hn))
          · exact Or.inl h
          · exact Or.inr ⟨Or.inl rfl, h1⟩
          · rcases hIH.mp (Or.inr hn) with ((h | rfl) | ⟨hr, hk⟩)
            · exact Or.inl h
            · exact Or.inr ⟨Or.inl rfl, h1⟩
            · exact Or.inr ⟨Or.inr hr, hk⟩
        · rintro (h | ⟨(rfl | hr), hk⟩)
          · exact Or.inl h
          · exact Or.inr (Or.inl rfl)
          · rcases hIH.mpr (Or.inr ⟨hr, hk⟩) with ((h | rfl) | hn)
            · exact Or.inl h
            · exact Or.inr (Or.inl rfl)
            · exact Or.inr (Or.inr hn)
    · rw [if_neg (by simp [h1])]
      rw [mem_newKeys_iff kw rest ids x]
      simp only [List.map_cons, List.mem_cons]
      constructor
      · rintro (h | ⟨hr, hk⟩)
        · exact Or.inl h
        · exact Or.inr ⟨Or.inr hr, hk⟩
      · rintro (h | ⟨(rfl | hr), hk⟩)
        · exact Or.inl h
        · exact absurd hk h1
        · exact Or.inr ⟨hr, hk⟩

theorem newKeys_nodup (kw : List String) :
    ∀ (scheds : List EstimateRow) (ids : List String), ids.Nodup →
      (ids ++ newKeys kw ids scheds).Nodup
  | [], ids, h => by simpa [newKeys] using h
  | r :: rest, ids, h => by
    rw [newKeys]
    by_cases h1 : aggKey r ∈ kw
    · by_cases h2 : aggKey r ∈ ids
      · rw [if_neg (by simp [h2])]
        exact newKeys_nodup kw rest ids h
      · rw [if_pos (by simp [h1, h2])]
        have := newKeys_nodup kw rest (ids ++ [aggKey r])
          (by simp [List.nodup_append, h, h2])
        simpa [List.append_assoc] using this
    · rw [if_neg (by simp [h1])]
      exact newKeys_nodup kw rest ids h

end SweepVerify

namespace SweepVerify

theorem schedule_lookup_mem {schedules : List EstimateRow} {sid : Nat} {sch : EstimateRow}
    (h : schedule_lookup schedules sid = some sch) : sch ∈ schedules := by
  have := List.mem_of_find?_eq_some h
  exact List.mem_reverse.mp this

theorem addMatchToGroups_keys (lookup : Nat → Option EstimateRow) (gs : List AggGroup)
    (m : AggMatchRow) :
    (addMatchToGroups lookup gs m).map (·.key) = gs.map (·.key) ∨
      ∃ sch, lookup m.schedule_id = some sch ∧
        aggKey sch ∉ gs.map (·.key) ∧
        (addMatchToGroups lookup gs m).map (·.key) = gs.map (·.key) ++ [aggKey sch] := by
  unfold addMatchToGroups
  cases hl : lookup m.schedule_id with
  | none => exact Or.inl rfl
  | some sch =>
    dsimp only
    by_cases hany : aggKey sch ∈ gs.map (·.key)
    · left
      rw [if_pos ((any_eq_true_iff_mem_map _ _ _).mpr hany)]
      rw [List.map_map]
      apply List.map_congr_left
      intro g _
      by_cases hg : g.key = aggKey sch <;> simp [Function.comp, hg]
    · right
      refine ⟨sch, rfl, hany, ?_⟩
      rw [if_neg (by rw [any_eq_true_iff_mem_map]; exact hany)]
      simp

theorem buildGroups_invariant (schedules : List EstimateRow) :
    ∀ (ms : List AggMatchRow) (gs : List AggGroup),
      (gs.map (·.key)).Nodup → (∀ k ∈ gs.map (·.key), k ∈ schedules.map aggKey) →
      ((ms.foldl (addMatchToGroups (schedule_lookup schedules)) gs).map (·.key)).Nodup ∧
      (∀ k ∈ (ms.foldl (addMatchToGroups (schedule_lookup schedules)) gs).map (·.key),
        k ∈ schedules.map aggKey)
  | [], gs, hnd, hsub => ⟨hnd, hsub⟩
  | m :: rest, gs, hnd, hsub => by
    rw [List.foldl_cons]
    apply buildGroups_invariant schedules rest
    · rcases addMatchToGroups_keys (schedule_lookup schedules) gs m with h | ⟨sch, _, hnotin, h⟩
      · rwa [h]
      · rw [h]
        simp [List.nodup_append, hnd, hnotin]
    · rcases addMatchToGroups_keys (schedule_lookup schedules) gs m with h | ⟨sch, hl, _, h⟩
      · rw [h]
        exact hsub
      · rw [h]
        intro k hk
        rcases List.mem_append.mp hk with hk | hk
        · exact hsub k hk
        · rw [List.mem_singleton] at hk
          subst hk
          exact List.mem_map.mpr ⟨sch, schedule_lookup_mem hl, rfl⟩

theorem phase1Rows_ids (gs : List AggGroup) :
    (phase1Rows gs).map (·.clean_id) = gs.map (·.key) := by
  simp [phase1Rows, List.map_map]

end SweepVerify

namespace SweepVerify

theorem firstAppearanceKeys_spec :
    ∀ (rows : List NormalizedRow) (acc : List LocKey), acc.Nodup →
      (rows.foldl (fun a r => if a.contains (locKey r) then a else a ++ [locKey r]) acc).Nodup ∧
      (∀ k, k ∈ rows.foldl (fun a r => if a.contains (locKey r) then a else a ++ [locKey r]) acc ↔
        k ∈ acc ∨ k ∈ rows.map locKey)
  | [], acc, h => ⟨h, by simp⟩
  | r :: rest, acc, h => by
    rw [List.foldl_cons]
    by_cases hc : locKey r ∈ acc
    · have hb : acc.contains (locKey r) = true := by simpa using hc
      rw [if_pos hb]
      obtain ⟨hnd, hmem⟩ := firstAppearanceKeys_spec rest acc h
      refine ⟨hnd, fun k => ?_⟩
      rw [hmem k]
      simp only [List.map_cons, List.mem_cons]
      constructor
      · rintro (h1 | h1)
        · exact Or.inl h1
        · exact Or.inr (Or.inr h1)
      · rintro (h1 | (rfl | h1))
        · exact Or.inl h1
        · exact Or.inl hc
        · exact Or.inr h1
    · have hb : ¬(acc.contains (locKey r) = true) := by simpa using hc
      rw [if_neg hb]
      obtain ⟨hnd, hmem⟩ := firstAppearanceKeys_spec rest (acc ++ [locKey r])
        (by simp [List.nodup_append, h, hc])
      refine ⟨hnd, fun k => ?_⟩
      rw [hmem k]
      simp only [List.mem_append, List.mem_singleton, List.map_cons, List.mem_cons]
      tauto

end SweepVerify

namespace SweepVerify

/-! Claim theorems. -/

/-- C1 counterexample: at exactly 10:00 on a rule with window `[8,10]` the
production temporal stage KEEPS the candidate (the source compares with
`from_hour <= t <= to_hour`), while the claim's predicate
`fromHour <= t < toHour` is false there — so the claim's "kept exactly
when" equivalence fails at this input. -/
theorem C1_temporal_upper_bound_counterexample :
    dayTimeFilter [⟨0, "", "Tuesday", 8, 10, none⟩] "Tuesday"
      (citationTimeDecimal 10 0) [0] = [0] ∧
    ¬((8 : ℚ) ≤ citationTimeDecimal 10 0 ∧ citationTimeDecimal 10 0 < 10) := by
  constructor
  · norm_num [dayTimeFilter, citationTimeDecimal, List.filter, Option.any]
  · norm_num [citationTimeDecimal]

/-- C1 (amended): stage 3 of the Match Pipeline keeps a surviving candidate
exactly when the rule's weekday equals the citation's weekday and
`fromHour <= timeOfDay <= toHour` with the upper bound INCLUSIVE
(`timeOfDay = hour + minute/60`); in particular a citation at `09:59` on a
rule with window `[8,10]` matches, and a citation at exactly `10:00` on
that rule ALSO matches. -/
theorem C1_temporal_window_inclusive :
    (∀ (schedules : List MatcherSchedule) (wd : String) (t : ℚ) (cands : List Nat) (i : Nat),
      i ∈ dayTimeFilter schedules wd t cands ↔
        i ∈ cands ∧ ∃ s, schedules[i]? = some s ∧ s.weekday = wd ∧
          s.scheduled_from_hour ≤ t ∧ t ≤ s.scheduled_to_hour) ∧
    dayTimeFilter [⟨0, "", "Tuesday", 8, 10, none⟩] "Tuesday"
      (citationTimeDecimal 9 59) [0] = [0] ∧
    dayTimeFilter [⟨0, "", "Tuesday", 8, 10, none⟩] "Tuesday"
      (citationTimeDecimal 10 0) [0] = [0] := by
  refine ⟨dayTimeFilter_mem, ?_, ?_⟩
  · norm_num [dayTimeFilter, citationTimeDecimal, List.filter, Option.any]
  · norm_num [dayTimeFilter, citationTimeDecimal, List.filter, Option.any]

/-- C2 counterexample: the grid index buckets a rule only by its FIRST
polyline vertex.  Here `maxDistanceMeters = 100 <= 1 * 100`, the rule's
polyline contains the query point itself (distance 0 under any metric), yet
the rule's index 0 is absent from the candidate set, because the first
vertex lies about 111 km (1110 cells) away. -/
theorem C2_grid_soundness_counterexample :
    (100 : ℚ) ≤ (1 : ℕ) * 100 ∧
    (⟨0, "", "", 0, 0, some [⟨37, 0⟩, ⟨38, 0⟩]⟩ : MatcherSchedule).parsed_coords =
      some [⟨37, 0⟩, ⟨38, 0⟩] ∧
    (⟨38, 0⟩ : GeoPoint) ∈ [(⟨37, 0⟩ : GeoPoint), ⟨38, 0⟩] ∧
    0 ∉ hybridSpatialCandidates 100 1
      [⟨0, "", "", 0, 0, some [⟨37, 0⟩, ⟨38, 0⟩]⟩] 38 0 := by
  refine ⟨by norm_num, rfl, by simp, ?_⟩
  intro hmem
  rw [hybridSpatialCandidates_mem] at hmem
  obtain ⟨s, hs, cell, hcell, hx, hy⟩ := hmem
  simp only [List.getElem?_cons_zero, Option.some.injEq] at hs
  subst hs
  have hv : lat_lon_to_grid 100 37 0 = (41070, 0) := by
    unfold lat_lon_to_grid
    have e1 : ((37 : ℚ) * 111000 / 100) = ((41070 : ℤ) : ℚ) := by norm_num
    have e2 : ((0 : ℚ) * 111000 * (794 / 1000) / 100) = ((0 : ℤ) : ℚ) := by norm_num
    rw [e1, e2, pyInt_intCast, pyInt_intCast]
  have hq : lat_lon_to_grid 100 38 0 = (42180, 0) := by
    unfold lat_lon_to_grid
    have e1 : ((38 : ℚ) * 111000 / 100) = ((42180 : ℤ) : ℚ) := by norm_num
    have e2 : ((0 : ℚ) * 111000 * (794 / 1000) / 100) = ((0 : ℤ) : ℚ) := by norm_num
    rw [e1, e2, pyInt_intCast, pyInt_intCast]
  unfold firstVertexCell at hcell
  simp only at hcell
  rw [hv] at hcell
  cases hcell
  rw [hq] at hx
  simp at hx

/-- C2 (amended): the grid index is sound with respect to a rule's
REPRESENTATIVE point (its first polyline vertex): whenever both projected
planar coordinates of the first vertex are within
`gridSearchRadius * cellSizeMeters` of the query point's, the rule's index
appears in the candidate set produced by unioning the buckets of the
`(2r+1) x (2r+1)` cell block.  The original claim over every polyline point
fails (only the first vertex is indexed). -/
theorem C2_grid_soundness_representative_vertex (grid_size : ℚ) (r : Nat)
    (schedules : List MatcherSchedule) (i : Nat) (s : MatcherSchedule)
    (v : GeoPoint) (rest : List GeoPoint) (lat lon : ℚ)
    (hg : 0 < grid_size)
    (hi : schedules[i]? = some s) (hcoords : s.parsed_coords = some (v :: rest))
    (hlat : |v.lat * 111000 - lat * 111000| ≤ (r : ℚ) * grid_size)
    (hlon : |v.lon * 111000 * (794 / 1000) - lon * 111000 * (794 / 1000)| ≤
      (r : ℚ) * grid_size) :
    i ∈ hybridSpatialCandidates grid_size r schedules lat lon := by
  apply (hybridSpatialCandidates_mem _ _ _ _ _ _).mpr
  refine ⟨s, hi, lat_lon_to_grid grid_size v.lat v.lon, ?_, ?_, ?_⟩
  · unfold firstVertexCell
    rw [hcoords]
  · exact pyInt_close hg hlat
  · exact pyInt_close hg hlon

/-- C2 witness: the soundness theorem applied at a concrete configuration
(query point equal to the rule's first vertex, cell size 100, radius 1). -/
theorem C2_grid_soundness_representative_vertex_witness :
    (0 : ℚ) < 100 ∧
    |(37 : ℚ) * 111000 - 37 * 111000| ≤ (1 : ℕ) * 100 ∧
    0 ∈ hybridSpatialCandidates 100 1
      [⟨0, "", "", 0, 0, some [⟨37, 0⟩, ⟨38, 0⟩]⟩] 37 0 := by
  refine ⟨by norm_num, by norm_num, ?_⟩
  exact C2_grid_soundness_representative_vertex 100 1
    [⟨0, "", "", 0, 0, some [⟨37, 0⟩, ⟨38, 0⟩]⟩] 0
    ⟨0, "", "", 0, 0, some [⟨37, 0⟩, ⟨38, 0⟩]⟩ ⟨37, 0⟩ [⟨38, 0⟩] 37 0
    (by norm_num) rfl rfl (by norm_num) (by norm_num)

/-- C3 counterexample: a canonical rule whose geometry is unparsable
(`parsed_coords = none`) is dropped by `build_hybrid_index` before
estimates are generated, so its `(cnn, side, weekPattern)` group never
reaches the aggregated output: with one such rule and no citations the
output has 0 rows while the canonical rule set has 1 distinct group. -/
theorem C3_left_join_missing_geometry_counterexample :
    (pipelineAggregate []
      [⟨⟨1, 100, "X", "A - B", "R", "East", "Monday", 8, 10, 1, 1, 1, 1, 1, ""⟩, none⟩]).length
      = 0 ∧
    ((([(⟨⟨1, 100, "X", "A - B", "R", "East", "Monday", 8, 10, 1, 1, 1, 1, 1, ""⟩, none⟩ :
        CanonicalRule)]).map (fun r => aggKey r.toEstimateRow)).dedup).length = 1 := by
  constructor
  · rfl
  · rfl

/-- C3 (amended): the aggregator itself has left-join semantics over the
schedules table it is given: for every match table and schedules table, the
number of output rows equals the number of distinct
`cnn_side_weekPattern` keys among the schedule rows.  End to end, that
table contains exactly the canonical rules whose geometry parsed, so groups
all of whose rules lack parsable geometry are absent from the output. -/
theorem C3_left_join_row_count (ms : List AggMatchRow) (scheds : List EstimateRow) :
    (aggregate_from_matches ms scheds).length = ((scheds.map aggKey).dedup).length := by
  obtain ⟨hnodup, hsub⟩ := buildGroups_invariant scheds ms [] (by simp) (by simp)
  unfold aggregate_from_matches
  simp only
  set groups := buildAggGroups scheds ms with hg
  have hgroups : groups = ms.foldl (addMatchToGroups (schedule_lookup scheds)) [] := rfl
  rw [← hgroups] at hnodup hsub
  set ids := groups.map (·.key) with hids
  set kw := (scheds.map aggKey).filter (fun k => !ids.contains k) with hkw
  have hlen : (addMissingSchedules kw scheds (phase1Rows groups)).length =
      ((addMissingSchedules kw scheds (phase1Rows groups)).map (·.clean_id)).length := by
    rw [List.length_map]
  rw [hlen, addMissing_map_id, phase1Rows_ids]
  have hmemkw : ∀ x, x ∈ kw ↔ x ∈ scheds.map aggKey ∧ x ∉ ids := by
    intro x
    rw [hkw, List.mem_filter]
    simp
  have hL : (ids ++ newKeys kw ids scheds).toFinset = (scheds.map aggKey).toFinset := by
    ext x
    rw [List.mem_toFinset, List.mem_toFinset, List.mem_append, mem_newKeys_iff]
    constructor
    · rintro (h | ⟨hs, hk⟩)
      · exact hsub x h
      · exact hs
    · intro h
      by_cases hin : x ∈ ids
      · exact Or.inl hin
      · exact Or.inr ⟨h, (hmemkw x).mpr ⟨h, hin⟩⟩
  have hnd : (ids ++ newKeys kw ids scheds).Nodup := newKeys_nodup kw scheds ids hnodup
  calc (ids ++ newKeys kw ids scheds).length
      = (ids ++ newKeys kw ids scheds).toFinset.card := (List.toFinset_card_of_nodup hnd).symm
    _ = (scheds.map aggKey).toFinset.card := by rw [hL]
    _ = ((scheds.map aggKey).dedup).length := by rw [List.card_toFinset]

/-- C4 counterexample: two rows sharing the location/time grouping key with
week bitmasks `10100` and `00010` (bitwise OR `10110`, not a target
pattern) are NOT left as separate rules: the production cleaner's
groupby-max step merges them into a single rule carrying the OR'd bitmask
`10110`. -/
theorem C4_week_pattern_merge_counterexample :
    clean_schedule_data_day_specific
      [⟨100, "MISSION", "A - B", "R", "East", 8, 10, "", 0, 1, 0, 0, 0, 0, 0, 0, 1, 0, 1, 0, 0⟩,
       ⟨100, "MISSION", "A - B", "R", "East", 8, 10, "", 0, 1, 0, 0, 0, 0, 0, 0, 0, 0, 0, 1, 0⟩] =
      [⟨"Monday", 100, "MISSION", "A - B", "R", "East", 8, 10, 1, 0, 1, 1, 0, 0, "", 2⟩] := by
  decide

/-- C4 (amended): the production cleaners merge unconditionally: every
group of normalized rows sharing `(corridor, limits, side, fromHour,
toHour)` — weekday is not part of the key — collapses to exactly one
combined rule (one output row per distinct key), whose weekday flags and
week bitmask are the pointwise max (bitwise OR) of the group, regardless
of the number of rows or of the OR pattern.  In particular the spec's
complementary case `10101 + 01010` does merge to a single weekly rule
`11111`. -/
theorem C4_groupby_merges_all_rows :
    (∀ rows : List NormalizedRow,
      (clean_combine_rows rows).length = ((rows.map locKey).dedup).length) ∧
    clean_schedule_data_day_specific
      [⟨100, "MISSION", "A - B", "R", "East", 8, 10, "", 0, 1, 0, 0, 0, 0, 0, 0, 1, 0, 1, 0, 1⟩,
       ⟨100, "MISSION", "A - B", "R", "East", 8, 10, "", 0, 1, 0, 0, 0, 0, 0, 0, 0, 1, 0, 1, 0⟩] =
      [⟨"Monday", 100, "MISSION", "A - B", "R", "East", 8, 10, 1, 1, 1, 1, 1, 0, "", 2⟩] := by
  constructor
  · intro rows
    unfold clean_combine_rows
    rw [List.length_map]
    obtain ⟨hnd, hmem⟩ := firstAppearanceKeys_spec rows [] List.nodup_nil
    have hset : (firstAppearanceKeys rows).toFinset = (rows.map locKey).toFinset := by
      ext k
      rw [List.mem_toFinset, List.mem_toFinset]
      have := hmem k
      unfold firstAppearanceKeys
      rw [this]
      simp
    calc (firstAppearanceKeys rows).length
        = (firstAppearanceKeys rows).toFinset.card := (List.toFinset_card_of_nodup hnd).symm
      _ = ((rows.map locKey).toFinset).card := by rw [hset]
      _ = ((rows.map locKey).dedup).length := by rw [List.card_toFinset]
  · decide

/-- C5 counterexample: a schedule group with only two `DURING_SCHEDULE`
matches (still below `minSample = 3` after the fallback) produces NO row in
the archived aggregator's estimates output — the `continue` drops the
group instead of emitting it with `citationCount = 0`. -/
theorem C5_below_min_sample_group_dropped_counterexample :
    calculate_time_relevance 9 8 10 = "DURING_SCHEDULE" ∧
    calculate_estimated_citation_times
      [⟨1, 9, calculate_time_relevance 9 8 10⟩, ⟨1, 9, calculate_time_relevance 9 8 10⟩] = [] := by
  exact ⟨by decide, by decide⟩

/-- C5 (amended): the archived aggregator prefers matches classified
`DURING_SCHEDULE` (an inclusive `fromHour <= hour <= toHour` window),
falls back to `DURING + AFTER` (up to 2 hours past the window) when fewer
than 3 exist, and when the relevant count is still below 3 it omits the
group from the estimates output entirely; consequently every emitted row
has `citation_count >= 3`. -/
theorem C5_estimates_min_sample (ms : List ArchiveMatch) (e : ArchiveEstimate)
    (h : e ∈ calculate_estimated_citation_times ms) : 3 ≤ e.citation_count := by
  simp only [calculate_estimated_citation_times, List.mem_filterMap] at h
  obtain ⟨sid, -, hf⟩ := h
  simp only [estimateForSid] at hf
  split_ifs at hf with h1
  simp only [Option.some.injEq] at hf
  subst hf
  exact Nat.le_of_not_lt h1

/-- C5 witness: the min-sample bound instantiated at a group with exactly
three `DURING_SCHEDULE` matches. -/
theorem C5_estimates_min_sample_witness :
    (ArchiveEstimate.mk 1 3 3) ∈ calculate_estimated_citation_times
      [⟨1, 9, "DURING_SCHEDULE"⟩, ⟨1, 9, "DURING_SCHEDULE"⟩, ⟨1, 9, "DURING_SCHEDULE"⟩] ∧
    3 ≤ (ArchiveEstimate.mk 1 3 3).citation_count := by
  exact ⟨by decide, C5_estimates_min_sample
    [⟨1, 9, "DURING_SCHEDULE"⟩, ⟨1, 9, "DURING_SCHEDULE"⟩, ⟨1, 9, "DURING_SCHEDULE"⟩]
    ⟨1, 3, 3⟩ (by decide)⟩

/-- C6 counterexample: the full normalizer is not idempotent:
`normalize("LOCUST ST") = "LOCUST"`, but a second pass strips the
suffix-shaped tail again, `normalize("LOCUST") = "LOCU"`. -/
theorem C6_normalize_not_idempotent_counterexample :
    normalizedStreetToken (normalizedStreetToken "LOCUST ST") ≠
      normalizedStreetToken "LOCUST ST" ∧
    normalizedStreetToken "LOCUST ST" = "LOCUST" ∧
    normalizedStreetToken "LOCUST" = "LOCU" := by
  refine ⟨by decide, by decide, by decide⟩

/-- C6 (amended): `normalize(normalize(x)) = normalize(x)` holds exactly on
inputs where a second extraction pass leaves the already-normalized token
unchanged (the uppercase/space-removal step alone is always idempotent);
in general the claim fails because the trailing street-type strip can fire
again on the collapsed token. -/
theorem C6_normalize_idempotent_on_fixed_tokens (x : String)
    (h : extract_street_from_address (normalizedStreetToken x) = normalizedStreetToken x) :
    normalizedStreetToken (normalizedStreetToken x) = normalizedStreetToken x := by
  unfold normalizedStreetToken
  unfold normalizedStreetToken at h
  rw [h]
  exact normalize_street_name_idem _

/-- C6 witness: idempotence at `"MARKET"`, whose token a second extraction
pass leaves unchanged. -/
theorem C6_normalize_idempotent_on_fixed_tokens_witness :
    extract_street_from_address (normalizedStreetToken "MARKET") =
      normalizedStreetToken "MARKET" ∧
    normalizedStreetToken (normalizedStreetToken "MARKET") = normalizedStreetToken "MARKET" :=
  ⟨by decide, C6_normalize_idempotent_on_fixed_tokens "MARKET" (by decide)⟩

/-- C7: the confidence score is bounded by 100; `score >= 80` yields HIGH,
`50 <= score < 80` MEDIUM, `score < 50` LOW; a geocoder non-result yields
(0, FAILED); street-match alone scores 40 (LOW), street-match plus
number-match scores 90 (HIGH); and `40 < 90 < 100`. -/
theorem C7_confidence_scoring_tiers :
    (∀ o r, (validate_geocoding_result o r).1 ≤ 100) ∧
    (∀ o r, 80 ≤ (validate_geocoding_result o r).1 →
      (validate_geocoding_result o r).2 = "HIGH") ∧
    (∀ o r, 50 ≤ (validate_geocoding_result o r).1 →
      (validate_geocoding_result o r).1 < 80 →
      (validate_geocoding_result o r).2 = "MEDIUM") ∧
    (∀ o r, (validate_geocoding_result o r).1 < 50 →
      (validate_geocoding_result o r).2 = "LOW") ∧
    (∀ a, process_citation_confidence a none = (0, "FAILED")) ∧
    validate_geocoding_result "MAIN ST" "MAIN STREET, SAN FRANCISCO" = (40, "LOW") ∧
    validate_geocoding_result "123 MAIN ST" "123 MAIN STREET, SAN FRANCISCO" = (90, "HIGH") ∧
    40 < 90 ∧ 90 < 100 := by
  refine ⟨fun o r => confidenceScore_le_100 _ _ _,
    fun o r h => confidenceLevel_high h,
    fun o r h1 h2 => confidenceLevel_medium h1 h2,
    fun o r h => confidenceLevel_low h,
    fun a => rfl, by decide, by decide, by norm_num, by norm_num⟩

/-- C7 witness: the HIGH-tier implication applied at a concrete pair whose
score is 90. -/
theorem C7_confidence_scoring_tiers_witness :
    (validate_geocoding_result "123 MAIN ST" "123 MAIN STREET, SAN FRANCISCO").2 = "HIGH" :=
  C7_confidence_scoring_tiers.2.1 "123 MAIN ST" "123 MAIN STREET, SAN FRANCISCO" (by decide)

/-- C8: the Match Pipeline's street extraction never strips a leading
street number, because the source's regex is written with doubled
backslashes (`production_hybrid_matcher_day_specific.py`, line 67) and so
matches a literal backslash rather than digits: on `"123 MAIN ST"` the
regex does not match, the number survives, and the extracted token differs
from that of `"MAIN ST"` — contradicting the function's own docstring
("removing number, directional, and type suffix") and the archived
development version, which uses the correct single-backslash pattern. -/
theorem C8_leading_number_never_stripped :
    reMatchLiteralBackslash "123 MAIN ST" = none ∧
    extract_street_from_address "123 MAIN ST" = "123 MAIN" ∧
    extract_street_from_address "MAIN ST" = "MAIN" ∧
    normalizedStreetToken "123 MAIN ST" ≠ normalizedStreetToken "MAIN ST" := by
  refine ⟨by decide, by decide, by decide, by decide⟩

/-- C9 counterexample: the production distance stage takes the minimum over
the polyline's VERTICES only; for a citation at the midpoint of a simple
2-vertex polyline the spec's 5-fraction sampled minimum accepts (sampled
distance 0) while the production stage rejects — so the two acceptance
predicates differ, exhibited here with an explicit distance function. -/
theorem C9_sampled_distance_counterexample :
    distanceKeep (fun p q => |p.lat - q.lat| + |p.lon - q.lon|) 0
      ⟨0, 1⟩ [⟨0, 0⟩, ⟨0, 2⟩] = false ∧
    specSampledKeep (fun p q => |p.lat - q.lat| + |p.lon - q.lon|) 0
      ⟨0, 1⟩ [⟨0, 0⟩, ⟨0, 2⟩] = true := by
  constructor
  · norm_num [distanceKeep, calculate_distance_to_schedule]
  · norm_num [specSampledKeep, specSampledDistance, segmentSample, sampleFractions]

/-- C9 (amended): for any distance function, the production distance stage
keeps a candidate exactly when SOME VERTEX of its polyline lies within
`maxDistanceMeters` of the citation point (the minimum is over vertices,
with no intermediate sample fractions; the `{0, 1/4, 1/2, 3/4, 1}`
sampling exists only in the archived development matcher). -/
theorem C9_distance_is_vertex_minimum (d : GeoPoint → GeoPoint → ℚ) (maxD : ℚ)
    (p : GeoPoint) (coords : List GeoPoint) :
    distanceKeep d maxD p coords = true ↔ ∃ c ∈ coords, d p c ≤ maxD := by
  cases coords with
  | nil => simp [distanceKeep, calculate_distance_to_schedule]
  | cons c cs =>
    simp only [distanceKeep, calculate_distance_to_schedule, decide_eq_true_eq]
    rw [foldl_min_le_iff]
    simp

/-- C10: when the citation's extracted-and-normalized street token is
empty (for example for a whitespace-only address), the corridor stage
passes every spatial candidate through unchanged; when the token is
non-empty, a candidate survives exactly when its schedule's normalized
corridor contains the token, is contained in it, or equals it. -/
theorem C10_empty_token_bypasses_corridor (address : String)
    (schedules : List MatcherSchedule) (cands : List Nat)
    (h : normalizedStreetToken address = "") :
    streetNameFilter (normalizedStreetToken address) schedules cands = cands ∧
    (∀ tok : String, tok ≠ "" → ∀ i : Nat,
      i ∈ streetNameFilter tok schedules cands ↔
        i ∈ cands ∧ ∃ s, schedules[i]? = some s ∧
          (strContains (normalizedStreetToken s.corridor) tok ||
           strContains tok (normalizedStreetToken s.corridor) ||
           tok == normalizedStreetToken s.corridor) = true) := by
  constructor
  · rw [h]
    unfold streetNameFilter
    rw [if_neg (by simp)]
  · intro tok htok i
    unfold streetNameFilter
    rw [if_pos htok, List.mem_filter]
    apply and_congr_right
    intro _
    cases hs : schedules[i]? with
    | none => simp [Option.any, hs]
    | some s => simp [Option.any, hs]

/-- C10 witness: the bypass at a whitespace-only address, whose normalized
token is empty. -/
theorem C10_empty_token_bypasses_corridor_witness :
    normalizedStreetToken "   " = "" ∧
    streetNameFilter (normalizedStreetToken "   ") [] [0, 1, 2] = [0, 1, 2] :=
  ⟨by decide, (C10_empty_token_bypasses_corridor "   " [] [0, 1, 2] (by decide)).1⟩

end SweepVerify
